import Mathlib

set_option maxRecDepth 8000

/-!
Verification of the slide-deck tooling in this repository:
`generate-preview.js` (a regex-substitution markdown-to-HTML preview
generator), `verify-slides.js` (a per-slide linter), the vitest suites
(`tests/slides.test.js`, `tests/visual.test.js`), and the browser
screenshot-capture script.  Texts are modelled as lists of characters,
and every JavaScript string operation the scripts use is translated to
an executable Lean function.
-/

/-- Texts (JavaScript strings) are modelled as lists of characters. -/
abbrev Str := List Char

/-- Embed a Lean string literal as a `Str`. -/
def str (s : String) : Str := s.data

/-- The slide delimiter `"---\n"` passed to `slides.split('---\n')` in
both `generate-preview.js` (line 6) and `verify-slides.js` (line 7). -/
def delim : Str := str "---\n"

/-- Prepend a character to the first piece of a split result; models the
left-to-right scan of `String.prototype.split`. -/
def consHead (c : Char) : List Str → List Str
  | [] => [[c]]
  | h :: t => (c :: h) :: t

/-- Fuel-bounded model of JavaScript `s.split('---\n')`: scan left to
right, cutting at every non-overlapping occurrence of the separator;
empty pieces are kept.  The fuel only serves to make the recursion
structural; `jsSplit` always supplies enough. -/
def jsSplitF : Nat → Str → List Str
  | 0, s => [s]
  | _+1, [] => [[]]
  | fuel+1, c :: rest =>
    if delim.isPrefixOf (c :: rest) then
      [] :: jsSplitF fuel ((c :: rest).drop delim.length)
    else
      consHead c (jsSplitF fuel rest)

/-- JavaScript `s.split('---\n')`. -/
def jsSplit (s : Str) : List Str := jsSplitF (s.length + 1) s

/-- Join pieces with the slide delimiter (the inverse of the split). -/
def joinD : List Str → Str
  | [] => []
  | [s] => s
  | s :: t :: rest => s ++ delim ++ joinD (t :: rest)

/-- Fuel-bounded count of non-overlapping occurrences of the delimiter,
with the same scan order as `jsSplitF`. -/
def countOccF : Nat → Str → Nat
  | 0, _ => 0
  | _+1, [] => 0
  | fuel+1, c :: rest =>
    if delim.isPrefixOf (c :: rest) then
      countOccF fuel ((c :: rest).drop delim.length) + 1
    else
      countOccF fuel rest

/-- Number of non-overlapping occurrences of `"---\n"` in `s`. -/
def countOcc (s : Str) : Nat := countOccF (s.length + 1) s

/-- JavaScript `s.includes(pat)`. -/
def containsSub (pat : Str) : Str → Bool
  | [] => pat.isEmpty
  | c :: rest => pat.isPrefixOf (c :: rest) || containsSub pat rest

/-- Index of the first occurrence of `pat` in `s`, if any (the position
at which a lazy regex scan first succeeds). -/
def findSub (pat : Str) : Str → Option Nat
  | [] => if pat.isEmpty then some 0 else none
  | c :: rest =>
    if pat.isPrefixOf (c :: rest) then some 0
    else (findSub pat rest).map (· + 1)

/-- Characters removed by JavaScript `String.prototype.trim`
(ECMAScript WhiteSpace and LineTerminator code points). -/
def isJsSpace (c : Char) : Bool :=
  c == ' ' || c == '\t' || c == '\n' || c == '\r' ||
  c == '\u000B' || c == '\u000C' || c == '\u00A0' || c == '\u1680' ||
  (0x2000 ≤ c.toNat && c.toNat ≤ 0x200A) ||
  c == '\u2028' || c == '\u2029' || c == '\u202F' || c == '\u205F' ||
  c == '\u3000' || c == '\uFEFF'

/-- A string is blank iff `s.trim()` is empty, i.e. iff it is falsy when
used as a filter predicate (`filter(s => s.trim())`). -/
def isBlank (s : Str) : Bool := s.all isJsSpace

/-- `verify-slides.js` line 7: `slides.split('---\n')` with no
filtering — every segment, blank or not, becomes a slide. -/
def verifySlideArray (T : Str) : List Str := jsSplit T

/-- `generate-preview.js` line 6:
`slides.split('---\n').filter(s => s.trim())` — blank segments are
removed before any slide is rendered. -/
def previewSlideArray (T : Str) : List Str :=
  (jsSplit T).filter (fun s => !isBlank s)

/-! ### Basic lemmas about the split -/

theorem joinD_consHead (c : Char) (L : List Str) :
    joinD (consHead c L) = c :: joinD L := by
  match L with
  | [] => rfl
  | [h] => rfl
  | h :: t :: rest => simp [consHead, joinD, List.cons_append]

theorem jsSplitF_ne_nil (fuel : Nat) (s : Str) : jsSplitF fuel s ≠ [] := by
  match fuel, s with
  | 0, s => simp [jsSplitF]
  | _+1, [] => simp [jsSplitF]
  | fuel+1, c :: rest =>
    simp only [jsSplitF]
    split
    · simp
    · match h : jsSplitF fuel rest with
      | [] => simp [consHead]
      | x :: xs => simp [consHead]

theorem delim_append_drop {s : Str} (h : delim.isPrefixOf s = true) :
    delim ++ s.drop delim.length = s := by
  rw [List.isPrefixOf_iff_prefix] at h
  obtain ⟨t, ht⟩ := h
  subst ht
  simp

theorem joinD_jsSplitF (fuel : Nat) (s : Str) :
    joinD (jsSplitF fuel s) = s := by
  induction fuel generalizing s with
  | zero => rfl
  | succ fuel ih =>
    match s with
    | [] => rfl
    | c :: rest =>
      simp only [jsSplitF]
      split
      · rename_i hpre
        match h : jsSplitF fuel ((c :: rest).drop delim.length) with
        | [] => exact absurd h (jsSplitF_ne_nil _ _)
        | x :: xs =>
          have := ih ((c :: rest).drop delim.length)
          rw [h] at this
          calc joinD ([] :: x :: xs) = delim ++ joinD (x :: xs) := by
                simp [joinD]
            _ = delim ++ (c :: rest).drop delim.length := by rw [this]
            _ = c :: rest := delim_append_drop hpre
      · rw [joinD_consHead, ih rest]

/-- Round trip for the split used by `verify-slides.js`. -/
theorem joinD_jsSplit (s : Str) : joinD (jsSplit s) = s :=
  joinD_jsSplitF _ s

theorem consHead_length (c : Char) {L : List Str} (h : L ≠ []) :
    (consHead c L).length = L.length := by
  match L with
  | [] => exact absurd rfl h
  | x :: xs => rfl

theorem jsSplitF_length (fuel : Nat) (s : Str) :
    (jsSplitF fuel s).length = countOccF fuel s + 1 := by
  induction fuel generalizing s with
  | zero => rfl
  | succ fuel ih =>
    match s with
    | [] => rfl
    | c :: rest =>
      simp only [jsSplitF, countOccF]
      split
      · simp [ih]
      · rw [consHead_length c (jsSplitF_ne_nil _ _), ih]

/-- First piece of the split: the split of `s` is nonempty and its head
is a prefix of `s`. -/
theorem jsSplitF_head_pref (fuel : Nat) (s : Str) :
    ∃ h t, jsSplitF fuel s = h :: t ∧ h <+: s := by
  induction fuel generalizing s with
  | zero => exact ⟨s, [], rfl, List.prefix_refl s⟩
  | succ fuel ih =>
    match s with
    | [] => exact ⟨[], [], rfl, List.nil_prefix⟩
    | c :: rest =>
      simp only [jsSplitF]
      split
      · exact ⟨[], _, rfl, List.nil_prefix⟩
      · obtain ⟨h, t, heq, hpref⟩ := ih rest
        rw [heq]
        exact ⟨c :: h, t, rfl, List.cons_prefix_cons.mpr ⟨rfl, hpref⟩⟩

theorem containsSub_nil_delim : containsSub delim [] = false := by decide

/-- No piece produced by the split contains the delimiter. -/
theorem jsSplitF_no_delim (fuel : Nat) (s : Str) (hfuel : s.length < fuel) :
    ∀ seg ∈ jsSplitF fuel s, containsSub delim seg = false := by
  induction fuel generalizing s with
  | zero => omega
  | succ fuel ih =>
    match s with
    | [] =>
      intro seg hseg
      simp only [jsSplitF, List.mem_singleton] at hseg
      subst hseg
      decide
    | c :: rest =>
      intro seg hseg
      simp only [jsSplitF] at hseg
      split at hseg
      · rename_i hpre
        rcases List.mem_cons.mp hseg with h | h
        · subst h; decide
        · have hlen : delim.length ≤ (c :: rest).length := by
            have := List.IsPrefix.length_le (List.isPrefixOf_iff_prefix.mp hpre)
            exact this
          have hd : ((c :: rest).drop delim.length).length < fuel := by
            simp only [List.length_drop]
            simp only [delim, str] at hlen ⊢
            simp only [List.length_cons] at hlen hfuel ⊢
            omega
          exact ih _ hd seg h
      · rename_i hpre
        obtain ⟨h, t, heq, hpref⟩ := jsSplitF_head_pref fuel rest
        rw [heq] at hseg
        have hrest : rest.length < fuel := by
          simp only [List.length_cons] at hfuel; omega
        rcases List.mem_cons.mp (by simpa [consHead, heq] using hseg) with hc | hc
        · subst hc
          simp only [containsSub, Bool.or_eq_false_iff]
          constructor
          · by_contra hcon
            apply hpre
            have h1 : delim <+: c :: h := by
              rw [← List.isPrefixOf_iff_prefix]
              simpa using hcon
            have h2 : (c :: h) <+: (c :: rest) :=
              List.cons_prefix_cons.mpr ⟨rfl, hpref⟩
            exact List.isPrefixOf_iff_prefix.mpr (h1.trans h2)
          · have := ih rest hrest h (by rw [heq]; exact List.mem_cons_self h t)
            simpa [containsSub] using this
        · exact ih rest hrest seg (by rw [heq]; exact List.mem_cons.mpr (Or.inr hc))

theorem jsSplit_no_delim (s : Str) :
    ∀ seg ∈ jsSplit s, containsSub delim seg = false :=
  jsSplitF_no_delim _ s (by omega)

/-- When the input contains no delimiter, the split is the whole text as
a single piece. -/
theorem jsSplitF_eq_single (fuel : Nat) (s : Str)
    (h : containsSub delim s = false) : jsSplitF fuel s = [s] := by
  induction fuel generalizing s with
  | zero => rfl
  | succ fuel ih =>
    match s with
    | [] => rfl
    | c :: rest =>
      simp only [containsSub, Bool.or_eq_false_iff] at h
      simp only [jsSplitF, h.1, Bool.false_eq_true, if_false]
      rw [ih rest h.2]
      rfl

/-! ### Line counting and the per-slide linter (`verify-slides.js`) -/

/-- JavaScript `s.split('\n')` (single-character separator). -/
def splitOnNewline : Str → List Str
  | [] => [[]]
  | c :: rest =>
    if c == '\n' then [] :: splitOnNewline rest
    else consHead c (splitOnNewline rest)

/-- `verify-slides.js` line 16:
`slide.split('\n').filter(line => line.trim()).length`. -/
def verifyLineCount (s : Str) : Nat :=
  ((splitOnNewline s).filter (fun l => !isBlank l)).length

/-- `generate-preview.js` line 134:
`slide.split('\n').filter(l => l.trim()).length`. -/
def previewLineCount (s : Str) : Nat :=
  ((splitOnNewline s).filter (fun l => !isBlank l)).length

/-- `tests/visual.test.js` lines 11-12:
`slide.split('\n')` then `lines.filter(line => line.trim()).length`. -/
def visualContentLines (s : Str) : Nat :=
  ((splitOnNewline s).filter (fun l => !isBlank l)).length

/-- `generate-preview.js` line 135: `const hasLongContent = lines > 25`. -/
def hasLongContent (s : Str) : Bool := decide (25 < previewLineCount s)

/-- `verify-slides.js` lines 19-23: the `issues` array collected for one
slide, in push order. -/
def verifyIssues (s : Str) : List Str :=
  (if 25 < verifyLineCount s then [str "⚠️  May be too long"] else []) ++
  (if containsSub (str "undefined") s then [str "❌ Contains undefined"] else []) ++
  (if containsSub (str "[object") s then [str "❌ Contains [object"] else [])

/-- An issue string whose rule identity is the forbidden-substring check
(the two `❌ Contains …` messages of `verify-slides.js`). -/
def isForbiddenFinding (i : Str) : Bool :=
  i == str "❌ Contains undefined" || i == str "❌ Contains [object"

/-- `tests/visual.test.js` lines 21-26 (`should have consistent
formatting`): the deck text must contain none of `undefined`,
`[object`, `null`. -/
def visualFormatOk (T : Str) : Bool :=
  !containsSub (str "undefined") T &&
  !containsSub (str "[object") T &&
  !containsSub (str "null") T

/-! ### Title extraction (`verify-slides.js` lines 12-14) -/

/-- ECMAScript LineTerminator code points (what `^`/`$` anchor around
under the `m` flag and what `.` never matches). -/
def isTerm (c : Char) : Bool :=
  c == '\n' || c == '\r' || c == '\u2028' || c == '\u2029'

/-- Split a text at every LineTerminator character (the lines seen by a
multiline regex scan). -/
def splitOnTerm : Str → List Str
  | [] => [[]]
  | c :: rest =>
    if isTerm c then [] :: splitOnTerm rest
    else consHead c (splitOnTerm rest)

/-- One line matched against `/^# (.+)$/`: the captured group is the
rest of the line after `"# "`, which must be nonempty. -/
def h1OfLine (l : Str) : Option Str :=
  if (str "# ").isPrefixOf l && decide (2 < l.length) then some (l.drop 2)
  else none

/-- `slide.match(/^# (.+)$/m)`: capture of the first line that is a
level-1 heading. -/
def firstH1 (s : Str) : Option Str := (splitOnTerm s).findSome? h1OfLine

/-- `verify-slides.js` lines 13-14:
`const title = titleMatch ? titleMatch[1] : 'No title'`. -/
def reportTitle (s : Str) : Str :=
  match firstH1 s with
  | some t => t
  | none => str "No title"

/-! ### Frontmatter stripping (`generate-preview.js` line 106) -/

/-- `content.replace(/^---[\s\S]*?---\n/, '')`: if the text starts with
`---` and, lazily scanning from position 3, the closing `---\n` occurs
somewhere, the first (shortest) such match is deleted; otherwise the
text is unchanged. -/
def stripFrontmatter (s : Str) : Str :=
  if (str "---").isPrefixOf s then
    match findSub (str "---\n") (s.drop 3) with
    | some i => (s.drop 3).drop (i + 4)
    | none => s
  else s

theorem findSub_none_of_not_contains {pat s : Str}
    (h : containsSub pat s = false) : findSub pat s = none := by
  induction s with
  | nil =>
    simp only [containsSub] at h
    simp [findSub, h]
  | cons c rest ih =>
    simp only [containsSub, Bool.or_eq_false_iff] at h
    simp only [findSub, h.1, Bool.false_eq_true, if_false]
    rw [ih h.2]
    rfl

theorem containsSub_of_cons {pat : Str} {c : Char} {rest : Str}
    (h : containsSub pat (c :: rest) = false) :
    containsSub pat rest = false := by
  simp only [containsSub, Bool.or_eq_false_iff] at h
  exact h.2

theorem containsSub_drop {pat s : Str} (h : containsSub pat s = false) :
    ∀ k, containsSub pat (s.drop k) = false := by
  induction s with
  | nil => intro k; simpa using h
  | cons c rest ih =>
    intro k
    match k with
    | 0 => exact h
    | k+1 => exact ih (containsSub_of_cons h) k

/-- The metadata-stripping step is the identity on every text that does
not contain the delimiter `"---\n"`: the lazy pattern
`^---[\s\S]*?---\n` can only match by including an occurrence of
`"---\n"` inside the matched region. -/
theorem stripFrontmatter_id_of_no_delim {s : Str}
    (h : containsSub delim s = false) : stripFrontmatter s = s := by
  unfold stripFrontmatter
  split
  · have hd : containsSub (str "---\n") (s.drop 3) = false :=
      containsSub_drop h 3
    rw [findSub_none_of_not_contains hd]
  · rfl

/-! ### The renderer pipeline (`generate-preview.js` lines 100-143)

Each `.replace(pattern, replacement)` with the `g` flag is modelled as a
left-to-right scan: at each position, if the matcher fires it returns
the replacement together with the remainder after the matched text and
the scan resumes there; otherwise the character is copied and the scan
advances one position.  Matchers translate the exact regular
expressions of the source, including greedy/lazy behaviour. -/

/-- Generic global-replace scan.  A matcher consumes at least one
character whenever it fires, so `length + 1` fuel always suffices. -/
def replaceAllF (m : Str → Option (Str × Str)) : Nat → Str → Str
  | 0, s => s
  | _+1, [] => []
  | fuel+1, c :: rest =>
    match m (c :: rest) with
    | some (rep, rem) => rep ++ replaceAllF m fuel rem
    | none => c :: replaceAllF m fuel rest

/-- Apply a global replace over the whole text. -/
def replaceAll (m : Str → Option (Str × Str)) (s : Str) : Str :=
  replaceAllF m (s.length + 1) s

/-- `/<Tweet id="(\d+)" \/>/g` → `'<div class="tweet">📱 Tweet: $1</div>'`
(`generate-preview.js` lines 109-110). -/
def matchTweet (s : Str) : Option (Str × Str) :=
  if (str "<Tweet id=\"").isPrefixOf s then
    let r1 := s.drop (str "<Tweet id=\"").length
    let ds := r1.takeWhile Char.isDigit
    if ds.isEmpty then none
    else
      let r2 := r1.drop ds.length
      if (str "\" />").isPrefixOf r2 then
        some (str "<div class=\"tweet\">📱 Tweet: " ++ ds ++ str "</div>",
              r2.drop (str "\" />").length)
      else none
  else none

/-- `/<img src="([^"]+)"[^>]*>/g` →
`'<div style="text-align: center;"><em>🖼️ Image: $1</em></div>'`
(`generate-preview.js` lines 113-114). -/
def matchImg (s : Str) : Option (Str × Str) :=
  if (str "<img src=\"").isPrefixOf s then
    let r1 := s.drop (str "<img src=\"").length
    let p := r1.takeWhile (fun c => !(c == '"'))
    if p.isEmpty then none
    else
      match r1.drop p.length with
      | '"' :: r3 =>
        let q := r3.takeWhile (fun c => !(c == '>'))
        match r3.drop q.length with
        | '>' :: r4 =>
          some (str "<div style=\"text-align: center;\"><em>🖼️ Image: "
                  ++ p ++ str "</em></div>", r4)
        | _ => none
      | _ => none
  else none

/-- Rewrite a whole text line by line, keeping every LineTerminator
character in place (models a `gm`-flagged whole-line substitution). -/
def mapLinesF (f : Str → Str) : Nat → Str → Str
  | 0, s => s
  | fuel+1, s =>
    let chunk := s.takeWhile (fun c => !isTerm c)
    match s.drop chunk.length with
    | [] => f chunk
    | t :: rest2 => f chunk ++ t :: mapLinesF f fuel rest2

/-- Line-by-line rewrite with enough fuel. -/
def mapLines (f : Str → Str) (s : Str) : Str := mapLinesF f (s.length + 1) s

/-- `/^### (.+)$/gm` → `'<h3>$1</h3>'` on one line. -/
def h3Line (l : Str) : Str :=
  if (str "### ").isPrefixOf l && decide (4 < l.length) then
    str "<h3>" ++ l.drop 4 ++ str "</h3>"
  else l

/-- `/^## (.+)$/gm` → `'<h2>$1</h2>'` on one line. -/
def h2Line (l : Str) : Str :=
  if (str "## ").isPrefixOf l && decide (3 < l.length) then
    str "<h2>" ++ l.drop 3 ++ str "</h2>"
  else l

/-- `/^# (.+)$/gm` → `'<h1>$1</h1>'` on one line. -/
def h1Line (l : Str) : Str :=
  if (str "# ").isPrefixOf l && decide (2 < l.length) then
    str "<h1>" ++ l.drop 2 ++ str "</h1>"
  else l

/-- `/^- (.+)$/gm` → `'<li>$1</li>'` on one line. -/
def liLine (l : Str) : Str :=
  if (str "- ").isPrefixOf l && decide (2 < l.length) then
    str "<li>" ++ l.drop 2 ++ str "</li>"
  else l

/-- Lazy scan for `(.+?)` followed by a closing token: consume one
non-terminator character at a time, succeeding at the first position
where the closing token follows a nonempty middle. -/
def lazyEmph (closing : Str) : Nat → Str → Str → Option (Str × Str)
  | 0, _, _ => none
  | fuel+1, accRev, s =>
    if !accRev.isEmpty && closing.isPrefixOf s then
      some (accRev.reverse, s.drop closing.length)
    else
      match s with
      | [] => none
      | c :: rest =>
        if isTerm c then none else lazyEmph closing fuel (c :: accRev) rest

/-- `/\*\*(.+?)\*\*/g` → `'<strong>$1</strong>'`. -/
def matchBold (s : Str) : Option (Str × Str) :=
  if (str "**").isPrefixOf s then
    (lazyEmph (str "**") (s.length + 1) [] (s.drop 2)).map
      (fun pr => (str "<strong>" ++ pr.1 ++ str "</strong>", pr.2))
  else none

/-- `/\*(.+?)\*/g` → `'<em>$1</em>'`. -/
def matchItalic (s : Str) : Option (Str × Str) :=
  if (str "*").isPrefixOf s then
    (lazyEmph (str "*") (s.length + 1) [] (s.drop 1)).map
      (fun pr => (str "<em>" ++ pr.1 ++ str "</em>", pr.2))
  else none

/-- Position of the last occurrence of `pat` in `s` (greedy `.*`
backtracks to the rightmost closing token on the line). -/
def findLastSubGo (pat : Str) : Str → Nat → Option Nat → Option Nat
  | [], _, best => best
  | c :: rest, i, best =>
    findLastSubGo pat rest (i + 1)
      (if pat.isPrefixOf (c :: rest) then some i else best)

/-- Last occurrence of `pat` in `s`, if any. -/
def findLastSub (pat : Str) (s : Str) : Option Nat :=
  findLastSubGo pat s 0 none

/-- One unit of `(<li>.*<\/li>\n?)+`: `<li>`, then (greedily) anything
up to the last `</li>` on the same line, then an optional newline.
Returns the number of characters consumed. -/
def liUnitLen (s : Str) : Option Nat :=
  if (str "<li>").isPrefixOf s then
    let r1 := s.drop 4
    let line := r1.takeWhile (fun c => !isTerm c)
    match findLastSub (str "</li>") line with
    | some k =>
      let base := 4 + k + 5
      match s.drop base with
      | '\n' :: _ => some (base + 1)
      | _ => some base
    | none => none
  else none

/-- Length of a maximal run of `<li>…</li>` units starting here. -/
def liRunLenF : Nat → Str → Nat
  | 0, _ => 0
  | fuel+1, s =>
    match liUnitLen s with
    | some n => n + liRunLenF fuel (s.drop n)
    | none => 0

/-- `/(<li>.*<\/li>\n?)+/g` → `'<ul>$&</ul>'`
(`generate-preview.js` line 124). -/
def matchLiRun (s : Str) : Option (Str × Str) :=
  let n := liRunLenF (s.length + 1) s
  if n == 0 then none
  else some (str "<ul>" ++ s.take n ++ str "</ul>", s.drop n)

/-- The backtick character, i.e. U+0060. -/
def backtick : Char := Char.ofNat 96

/-- A fenced code block: three backticks, an optional word run, a
newline, then (lazily) anything up to the next three backticks.
`/```(\w+)?\n([\s\S]*?)```/g` → `'<pre><code>$2</code></pre>'`. -/
def matchFence (s : Str) : Option (Str × Str) :=
  let fence := [backtick, backtick, backtick]
  if fence.isPrefixOf s then
    let r1 := s.drop 3
    let w := r1.takeWhile (fun c => c.isAlphanum || c == '_')
    match r1.drop w.length with
    | '\n' :: r2 =>
      match findSub fence r2 with
      | some i =>
        some (str "<pre><code>" ++ r2.take i ++ str "</code></pre>",
              (r2.drop i).drop 3)
      | none => none
    | _ => none
  else none

/-- An inline code span: a backtick, a nonempty run of non-backtick
characters, a closing backtick.  `/`([^`]+)`/g` → `'<code>$1</code>'`. -/
def matchInlineCode (s : Str) : Option (Str × Str) :=
  match s with
  | c :: r1 =>
    if c == backtick then
      let mid := r1.takeWhile (fun x => !(x == backtick))
      if mid.isEmpty then none
      else
        match r1.drop mid.length with
        | c2 :: r2 => if c2 == backtick then
            some (str "<code>" ++ mid ++ str "</code>", r2)
          else none
        | [] => none
    else none
  | [] => none

/-- A Markdown link: `/\[([^\]]+)\]\(([^)]+)\)/g` →
`'<a href="$2">$1</a>'`. -/
def matchLink (s : Str) : Option (Str × Str) :=
  match s with
  | '[' :: r1 =>
    let a := r1.takeWhile (fun c => !(c == ']'))
    if a.isEmpty then none
    else
      match r1.drop a.length with
      | ']' :: '(' :: r2 =>
        let b := r2.takeWhile (fun c => !(c == ')'))
        if b.isEmpty then none
        else
          match r2.drop b.length with
          | ')' :: r3 =>
            some (str "<a href=\"" ++ b ++ str "\">" ++ a ++ str "</a>", r3)
          | _ => none
      | _ => none
  | _ => none

/-- `/\n\n/g` → `'</p><p>'`. -/
def matchParaBreak (s : Str) : Option (Str × Str) :=
  if (str "\n\n").isPrefixOf s then some (str "</p><p>", s.drop 2) else none

/-- The full substitution pipeline applied to one slide's raw text
(`generate-preview.js` lines 103-131), in the source's exact order:
frontmatter strip, tweet embeds, images, headings h3/h2/h1, bold,
italic, list items, list wrapping, code fences, inline code, links,
paragraph breaks, then wrap in `<p>…</p>` (the anchors `/^/` and `/$/`
without the `m` flag match only at the ends of the whole string). -/
def processSlideContent (s : Str) : Str :=
  let c1 := stripFrontmatter s
  let c2 := replaceAll matchTweet c1
  let c3 := replaceAll matchImg c2
  let c4 := mapLines h3Line c3
  let c5 := mapLines h2Line c4
  let c6 := mapLines h1Line c5
  let c7 := replaceAll matchBold c6
  let c8 := replaceAll matchItalic c7
  let c9 := mapLines liLine c8
  let c10 := replaceAll matchLiRun c9
  let c11 := replaceAll matchFence c10
  let c12 := replaceAll matchInlineCode c11
  let c13 := replaceAll matchLink c12
  let c14 := replaceAll matchParaBreak c13
  str "<p>" ++ c14 ++ str "</p>"

/-- The advisory banner of `generate-preview.js` line 140. -/
def warningBanner (s : Str) : Str :=
  str "<div class=\"warning\">⚠️ This slide may be too long ("
    ++ (Nat.repr (previewLineCount s)).data ++ str " lines)</div>"

/-- One rendered slide container (`generate-preview.js` lines 137-142):
the 1-based slide number, the banner when `hasLongContent`, and the
transformed content. -/
def renderBlock (index : Nat) (s : Str) : Str :=
  str "\n    <div class=\"slide\">\n        <div class=\"slide-number\">Slide "
    ++ (Nat.repr (index + 1)).data
    ++ str "</div>\n        "
    ++ (if hasLongContent s then warningBanner s else [])
    ++ str "\n        "
    ++ processSlideContent s
    ++ str "\n    </div>"

/-- The `slideArray.forEach((slide, index) => …)` loop of
`generate-preview.js` lines 100-143: the guard
`if (!slide.trim()) return;` skips blank slides (the index still
advances), every other slide contributes one rendered block. -/
def renderBlocksGo : Nat → List Str → List Str
  | _, [] => []
  | i, s :: rest =>
    if isBlank s then renderBlocksGo (i + 1) rest
    else renderBlock i s :: renderBlocksGo (i + 1) rest

/-- All rendered slide blocks for an input text. -/
def renderedBlocks (T : Str) : List Str :=
  renderBlocksGo 0 (previewSlideArray T)

/-! ### Ordered-marker validation -/

/-- Index of the first slide whose text contains the marker
(`sections.findIndex(s => s.includes(marker))` in
`tests/slides.test.js` lines 92-95). -/
def firstIdx (m : Str) : List Str → Option Nat
  | [] => none
  | s :: rest =>
    if containsSub m s then some 0 else (firstIdx m rest).map (· + 1)

/-- A validation finding of the ordered-marker rule. -/
inductive Finding
  | notFound (marker : Str)
  | outOfOrder (marker prevMarker : Str)
deriving DecidableEq

/-- Modelled from the spec: the repository has no standalone validator
producing findings — `tests/slides.test.js` (`should follow narrative
arc`) only asserts `findIndex` inequalities pairwise.  This models the
`requiredOrderedMarkers` check of the specification: walk the markers
in order keeping the last successfully matched slide position; a
missing marker yields a `notFound` finding and leaves the position
unchanged; a marker whose first occurrence is strictly before the last
matched position yields an `outOfOrder` finding naming it and the
previously matched marker. -/
def checkOrderedGo (deck : List Str) :
    List Str → Nat → Str → List Finding
  | [], _, _ => []
  | m :: ms, pos, prev =>
    match firstIdx m deck with
    | none => Finding.notFound m :: checkOrderedGo deck ms pos prev
    | some p =>
      if p < pos then Finding.outOfOrder m prev :: checkOrderedGo deck ms pos prev
      else checkOrderedGo deck ms p m

/-- Ordering-rule findings for a deck and a required marker order. -/
def checkOrdered (deck markers : List Str) : List Finding :=
  checkOrderedGo deck markers 0 (str "")

/-! ### Screenshot capture (`capture-slides` script) -/

/-- Observable actions of the capture loop. -/
inductive CapAction
  | goto (page : Nat)
  | wait (ms : Nat)
  | shoot (page : Nat)
  | logError (page : Nat)
deriving DecidableEq

/-- The `for (let i = 1; i <= 20; i++)` loop of the capture script:
navigate to page `i`, wait a fixed 1000 ms, take the screenshot; if the
attempt for a page fails (modelled by the oracle `fails`, the
navigation throwing), log the error and `break`, leaving the loop.
`countdown` is the number of remaining iterations (20 at the start). -/
def captureGo (fails : Nat → Bool) : Nat → Nat → List CapAction
  | _, 0 => []
  | i, countdown+1 =>
    if fails i then [CapAction.goto i, CapAction.logError i]
    else
      CapAction.goto i :: CapAction.wait 1000 :: CapAction.shoot i ::
        captureGo fails (i + 1) countdown

/-- The action trace of `captureSlides` for a given failure oracle. -/
def captureSlides (fails : Nat → Bool) : List CapAction :=
  captureGo fails 1 20

/-- Screenshot files present after a run: one per `shoot` action; no
action of the script ever deletes a file. -/
def capturedPages (tr : List CapAction) : List Nat :=
  tr.filterMap (fun a =>
    match a with
    | CapAction.shoot n => some n
    | _ => none)

/-- Pages `s, s+1, …, s+n-1`. -/
def natsFrom : Nat → Nat → List Nat
  | _, 0 => []
  | s, n+1 => s :: natsFrom (s + 1) n

/-- The trace of a successful run over the given pages. -/
def shotSeq : List Nat → List CapAction
  | [] => []
  | i :: rest =>
    CapAction.goto i :: CapAction.wait 1000 :: CapAction.shoot i :: shotSeq rest

theorem captureGo_eq_of_first_fail (fails : Nat → Bool) :
    ∀ (countdown i k : Nat), i ≤ k → k < i + countdown →
    fails k = true → (∀ j, i ≤ j → j < k → fails j = false) →
    captureGo fails i countdown =
      shotSeq (natsFrom i (k - i)) ++ [CapAction.goto k, CapAction.logError k] := by
  intro countdown
  induction countdown with
  | zero => intro i k hik hlt _ _; omega
  | succ countdown ih =>
    intro i k hik hlt hk hprev
    by_cases hI : i = k
    · subst hI
      simp [captureGo, hk, Nat.sub_self, natsFrom, shotSeq]
    · have hik' : i < k := by omega
      have hfi : fails i = false := hprev i (Nat.le_refl i) hik'
      have hrange : k - i = (k - (i + 1)) + 1 := by omega
      simp only [captureGo, hfi, Bool.false_eq_true, if_false]
      rw [ih (i + 1) k (by omega) (by omega) hk
            (fun j h1 h2 => hprev j (by omega) h2)]
      rw [hrange]
      simp [natsFrom, shotSeq]

theorem capturedPages_shotSeq_append (l : List Nat) (k : Nat) :
    capturedPages (shotSeq l ++ [CapAction.goto k, CapAction.logError k]) = l := by
  induction l with
  | nil => rfl
  | cons i rest ih =>
    simp only [shotSeq, List.cons_append, capturedPages, List.filterMap_cons]
    simpa [capturedPages] using ih

/-! ### Remaining helper lemmas -/

theorem findSomeNoneAll {α β : Type} (f : α → Option β) (L : List α)
    (h : ∀ x ∈ L, f x = none) : L.findSome? f = none := by
  induction L with
  | nil => rfl
  | cons x xs ih =>
    rw [List.findSome?_cons]
    rw [h x (List.mem_cons_self x xs)]
    exact ih (fun y hy => h y (List.mem_cons.mpr (Or.inr hy)))

theorem findSomeFirst {α β : Type} (f : α → Option β) (pre : List α)
    (l : α) (post : List α) (b : β) (hpre : ∀ x ∈ pre, f x = none)
    (hl : f l = some b) : (pre ++ l :: post).findSome? f = some b := by
  induction pre with
  | nil =>
    simp only [List.nil_append, List.findSome?_cons, hl]
  | cons x xs ih =>
    simp only [List.cons_append, List.findSome?_cons,
      hpre x (List.mem_cons_self x xs)]
    exact ih (fun y hy => hpre y (List.mem_cons.mpr (Or.inr hy)))

theorem renderBlocksGo_len (l : List Str) (h : ∀ s ∈ l, isBlank s = false) :
    ∀ i, (renderBlocksGo i l).length = l.length := by
  induction l with
  | nil => intro i; rfl
  | cons x xs ih =>
    intro i
    have hx : isBlank x = false := h x (List.mem_cons_self x xs)
    simp only [renderBlocksGo, hx, Bool.false_eq_true, if_false,
      List.length_cons]
    rw [ih (fun s hs => h s (List.mem_cons.mpr (Or.inr hs))) (i + 1)]

theorem previewSlideArray_no_blank (T : Str) :
    ∀ s ∈ previewSlideArray T, isBlank s = false := by
  intro s hs
  have h := List.mem_filter.mp hs
  simpa using h.2

/-! ### The claims -/

/-- C1 (counterexample): the text `"---\nx"` splits into two segments,
an empty leading one and `"x"`, but the preview generator's deck
contains only one Slide — the empty leading segment is silently
dropped by `filter(s => s.trim())`, contradicting the claim. -/
theorem c1_segments_cex :
    jsSplit (str "---\nx") = [[], str "x"] ∧
    previewSlideArray (str "---\nx") = [str "x"] := by
  constructor <;> rfl

/-- C1 (amended): the linter's parse (`verify-slides.js`) produces one
Slide per delimiter-separated segment — its deck length is the number
of delimiter occurrences plus one, so empty leading/trailing segments
are kept — while the preview generator's parse is exactly that deck
with all whitespace-only segments filtered out. -/
theorem c1_segments_amended (T : Str) :
    (verifySlideArray T).length = countOcc T + 1 ∧
    previewSlideArray T = (verifySlideArray T).filter (fun s => !isBlank s) := by
  exact ⟨jsSplitF_length _ T, rfl⟩

/-- C3 (counterexample): for the input `"a\n---\n---\nb"`, whose middle
segment is empty, joining the preview generator's Slides with the
delimiter yields `"a\n---\nb"`, not the original text — the round trip
fails because the blank segment was dropped. -/
theorem c3_roundtrip_cex :
    joinD (previewSlideArray (str "a\n---\n---\nb")) ≠ str "a\n---\n---\nb" := by
  decide

/-- C3 (amended): for the linter's parse (`verify-slides.js`), which
keeps every segment, joining the Slides' raw texts with the delimiter
reconstructs the input exactly; no metadata is stripped at parse time,
so there is nothing to re-insert. -/
theorem c3_roundtrip_amended (T : Str) :
    joinD (verifySlideArray T) = T :=
  joinD_jsSplit T

/-- C4 (counterexample): for a deck whose source begins with a
metadata block, the block's body becomes the deck-initial Slide and
the metadata-stripping step leaves it unchanged — nothing is ever
stripped, contradicting the claim that the first Slide has its leading
metadata block removed. -/
theorem c4_strip_cex :
    previewSlideArray (str "---\ntitle: Demo\n---\n\n# A\n") =
      [str "title: Demo\n", str "\n# A\n"] ∧
    stripFrontmatter (str "title: Demo\n") = str "title: Demo\n" := by
  constructor <;> rfl

/-- C4 (amended): the metadata-stripping step of the renderer is the
identity on every Slide of every deck, the deck-initial one included:
the split removes every occurrence of `"---\n"`, so no segment can
match `/^---[\s\S]*?---\n/`. -/
theorem c4_strip_noop (T seg : Str) (h : seg ∈ previewSlideArray T) :
    stripFrontmatter seg = seg := by
  have hmem : seg ∈ jsSplit T := (List.mem_filter.mp h).1
  exact stripFrontmatter_id_of_no_delim (jsSplit_no_delim T seg hmem)

/-- C4 (witness): concrete instantiation of `c4_strip_noop`. -/
theorem c4_strip_noop_witness : stripFrontmatter (str "x") = str "x" :=
  c4_strip_noop (str "---\nx") (str "x") (by decide)

/-- C7: the parser and renderer are total — every input text parses to
a nonempty deck, an input with no delimiter parses to a single Slide
holding the entire text, and every Slide of the preview deck is
rendered to a block (the blank-slide guard in the `forEach` never
fires because blank segments were already filtered out). -/
theorem c7_total (T : Str) :
    verifySlideArray T ≠ [] ∧
    (containsSub delim T = true ∨ verifySlideArray T = [T]) ∧
    (renderedBlocks T).length = (previewSlideArray T).length := by
  refine ⟨jsSplitF_ne_nil _ T, ?_, ?_⟩
  · by_cases h : containsSub delim T = true
    · exact Or.inl h
    · exact Or.inr (jsSplitF_eq_single _ T (by simpa using h))
  · exact renderBlocksGo_len _ (previewSlideArray_no_blank T) 0

/-- C5 (counterexample): the rendered output of a slide whose raw text
is `"<script>alert(1)</script>"` contains the literal `<script>` markup
and no HTML entity escape — raw angle brackets are injected verbatim
into the rendered document, contradicting the claim that unmatched
text is escaped for HTML. -/
theorem c5_escape_cex :
    containsSub (str "<script>")
      (processSlideContent (str "<script>alert(1)</script>")) = true ∧
    containsSub (str "&lt;")
      (processSlideContent (str "<script>alert(1)</script>")) = false := by
  constructor <;> rfl

/-- C5 (amended): rendering never fails, but a segment that matches no
substitution rule passes through as literal, UNESCAPED text: the slide
`"<script>alert(1)</script>"` renders to exactly
`"<p><script>alert(1)</script></p>"`. -/
theorem c5_passthrough_amended :
    processSlideContent (str "<script>alert(1)</script>") =
      str "<p><script>alert(1)</script></p>" := by
  rfl

/-- A slide consisting of 26 non-blank lines. -/
def longSlide26 : Str := (List.replicate 26 (str "a\n")).flatten

/-- C2 (counterexample): for a slide with 26 non-blank lines the
renderer emits its inline advisory banner (its threshold is 25 lines),
while the validator length rule with the claimed threshold of 30
(`tests/visual.test.js`) does not flag the slide — the two disagree,
and the shared `maxContentLinesPerSlide = 30` threshold does not
exist. -/
theorem c2_threshold_cex :
    hasLongContent longSlide26 = true ∧
    containsSub (str "class=\"warning\"") (renderBlock 0 longSlide26) = true ∧
    ¬(30 < visualContentLines longSlide26) := by
  refine ⟨rfl, rfl, by decide⟩

/-- C2 (amended): the renderer's banner and the linter of
`verify-slides.js` share the threshold of 25 non-blank lines — the
banner is emitted iff the linter records its `May be too long` issue —
while the visual test's length rule uses 30, so the renderer and that
validator disagree exactly on slides of 26 to 30 non-blank lines. -/
theorem c2_threshold_amended (s : Str) :
    hasLongContent s = true ↔ (str "⚠️  May be too long") ∈ verifyIssues s := by
  have hpv : previewLineCount s = verifyLineCount s := rfl
  constructor
  · intro hc
    have h25 : 25 < verifyLineCount s := by
      rw [← hpv]
      exact of_decide_eq_true hc
    unfold verifyIssues
    simp [h25]
  · intro hmem
    unfold verifyIssues at hmem
    by_cases h25 : 25 < verifyLineCount s
    · unfold hasLongContent
      rw [hpv]
      exact decide_eq_true h25
    · exfalso
      simp only [h25, if_false, List.nil_append] at hmem
      rcases List.mem_append.mp hmem with hm | hm <;>
        · split at hm
          · rw [List.mem_singleton] at hm
            exact absurd hm (by decide)
          · exact absurd hm (List.not_mem_nil _)

/-- C6: the ordered-marker rule — if marker `A` first occurs at slide
index `i` and marker `B` at slide index `j`, then with required order
`[A, B]` validation reports no ordering findings when `i < j`, and
exactly one `outOfOrder` finding referencing `B` before `A` when
`j < i`. -/
theorem c6_ordering (deck : List Str) (A B : Str) (i j : Nat)
    (hA : firstIdx A deck = some i) (hB : firstIdx B deck = some j) :
    (i < j → checkOrdered deck [A, B] = []) ∧
    (j < i → checkOrdered deck [A, B] = [Finding.outOfOrder B A]) := by
  unfold checkOrdered
  constructor
  · intro hij
    have hji : ¬(j < i) := by omega
    simp [checkOrderedGo, hA, hB, hji]
  · intro hji
    simp [checkOrderedGo, hA, hB, hji]

/-- A concrete deck where marker `"B"` first occurs at slide 1 and
marker `"A"` at slide 5. -/
def narrativeDeck : List Str :=
  [str "intro", str "B", str "mid", str "x", str "y", str "A"]

/-- C6 (witness): concrete instantiation of `c6_ordering`. -/
theorem c6_ordering_witness :
    checkOrdered narrativeDeck [str "A", str "B"] =
      [Finding.outOfOrder (str "B") (str "A")] :=
  (c6_ordering narrativeDeck (str "A") (str "B") 5 1
    (by decide) (by decide)).2 (by decide)

/-- C8 (counterexample): a deck whose single slide is `"a null b"`
contains the literal substring `"null"`, yet the linter of
`verify-slides.js` produces no finding referencing the
forbidden-substring check — `null` is not among the substrings it
tests, contradicting the claim. -/
theorem c8_null_cex :
    verifySlideArray (str "a null b") = [str "a null b"] ∧
    containsSub (str "null") (str "a null b") = true ∧
    (verifyIssues (str "a null b")).any isForbiddenFinding = false := by
  refine ⟨rfl, rfl, rfl⟩

/-- C8 (amended): the linter of `verify-slides.js` produces a
forbidden-substring finding for a slide iff the slide contains
`"undefined"` or `"[object"` — `"null"` is not checked there; only the
visual test's deck-level assertion additionally forbids `"null"`, and
it fails iff the text contains any of the three substrings. -/
theorem c8_forbidden_amended (s : Str) :
    ((verifyIssues s).any isForbiddenFinding = true ↔
      (containsSub (str "undefined") s = true ∨
       containsSub (str "[object") s = true)) ∧
    (visualFormatOk s = false ↔
      (containsSub (str "undefined") s = true ∨
       containsSub (str "[object") s = true ∨
       containsSub (str "null") s = true)) := by
  constructor
  · unfold verifyIssues
    by_cases hu : containsSub (str "undefined") s = true <;>
      by_cases ho : containsSub (str "[object") s = true <;>
        by_cases hl : 25 < verifyLineCount s <;>
          · simp only [hu, ho, hl, isForbiddenFinding, List.any_append,
              if_true, if_false, List.any_cons, List.any_nil]
            all_goals decide
  · unfold visualFormatOk
    by_cases hu : containsSub (str "undefined") s = true <;>
      by_cases ho : containsSub (str "[object") s = true <;>
        by_cases hn : containsSub (str "null") s = true <;>
          simp [hu, ho, hn]

/-- C9: in the screenshot-capture loop pages are visited sequentially,
each successful page's trace is `goto`, a fixed 1000 ms settle wait,
then the screenshot; if page `k` is the first to fail, the run is the
successful traces of pages `1 … k-1` followed by the failing page's
`goto` and error log — the loop stops there, and the screenshots
already captured (exactly pages `1 … k-1`) remain; no action deletes
them. -/
theorem c9_capture (fails : Nat → Bool) (k : Nat)
    (h1 : 1 ≤ k) (h2 : k ≤ 20) (hf : fails k = true)
    (hprev : ∀ j, j < k → 1 ≤ j → fails j = false) :
    captureSlides fails =
      shotSeq (natsFrom 1 (k - 1)) ++
        [CapAction.goto k, CapAction.logError k] ∧
    capturedPages (captureSlides fails) = natsFrom 1 (k - 1) := by
  have htrace := captureGo_eq_of_first_fail fails 20 1 k h1 (by omega) hf
    (fun j hj1 hj2 => hprev j hj2 hj1)
  refine ⟨htrace, ?_⟩
  rw [show captureSlides fails = captureGo fails 1 20 from rfl, htrace]
  exact capturedPages_shotSeq_append _ _

/-- C9 (witness): concrete instantiation of `c9_capture` with the
first failure at page 3. -/
theorem c9_capture_witness :
    captureSlides (fun j => decide (3 ≤ j)) =
      shotSeq (natsFrom 1 2) ++ [CapAction.goto 3, CapAction.logError 3] ∧
    capturedPages (captureSlides (fun j => decide (3 ≤ j))) = natsFrom 1 2 :=
  c9_capture (fun j => decide (3 ≤ j)) 3 (by decide) (by decide)
    (by decide) (by decide)

/-- C10: for every slide, when no line is a level-1 heading the linter
reports the fallback title `"No title"`, and when some line is a
level-1 heading — the lines before it being none — the reported title
is the text of that first heading line. -/
theorem c10_title (s : Str) :
    ((∀ l ∈ splitOnTerm s, h1OfLine l = none) →
      reportTitle s = str "No title") ∧
    (∀ pre l post t, splitOnTerm s = pre ++ l :: post →
      (∀ l2 ∈ pre, h1OfLine l2 = none) → h1OfLine l = some t →
      reportTitle s = t) := by
  constructor
  · intro hall
    unfold reportTitle firstH1
    rw [findSomeNoneAll h1OfLine (splitOnTerm s) hall]
  · intro pre l post t heq hpre hl
    unfold reportTitle firstH1
    rw [heq, findSomeFirst h1OfLine pre l post t hpre hl]

/-- C10 (witness): concrete instantiation of `c10_title` on a slide
whose first level-1 heading is its second line. -/
theorem c10_title_witness : reportTitle (str "hello\n# Ti\nx") = str "Ti" :=
  (c10_title (str "hello\n# Ti\nx")).2 [str "hello"] (str "# Ti")
    [str "x"] (str "Ti") (by decide) (by decide) (by decide)
